import Mathlib

/-!
Verification of the Conversation Prioritization & Routing Core of the
Omnichannel Customer Experience Platform (repository documents: requirements
and design).  The repository ships the design as documents; the urgency
scoring algorithm and the routing logic are embedded here from the design
document's "Scoring Algorithm" and "Routing Logic" blocks, while the priority
queue, assignment coordinator and escalation state machine — specified only by
interface and prose — are modelled from the specification (§4.2, §4.3, §4.4,
§4.5).
-/

namespace OmniRouting

/-! ## Urgency Scorer (design document, "Scoring Algorithm") -/

/-- Intent categories of the intent classifier (design document,
`IntentCategory`). -/
inductive IntentCategory where
  | inquiry
  | complaint
  | request
  | feedback
  | escalation
deriving DecidableEq, Repr

/-- Customer value tiers (design document, `CustomerProfile.customerValue`). -/
inductive CustomerValue where
  | low
  | medium
  | high
  | vip
deriving DecidableEq, Repr

/-- The signal bundle consumed by the urgency scorer: latest sentiment score,
primary intent category, customer value tier, the repeat-contact window facts
from the contact-history lookup, and the time-sensitivity facts.  Sentiment
scores are exact rationals in [-1, 1]. -/
structure UrgencyInput where
  sentimentScore : ℚ
  intent : IntentCategory
  customerValue : CustomerValue
  repeatWithin7d : Bool
  repeatWithin30d : Bool
  urgencyKeywords : Bool
  afterHours : Bool
deriving DecidableEq, Repr

/-- Sentiment adjustment: score < -0.5 gives +2, score < -0.3 gives +1,
score > 0.5 gives -1, otherwise 0.  (Rational constants are written with
`mkRat` so that they evaluate by kernel reduction.) -/
def sentimentAdjustment (s : ℚ) : ℤ :=
  if s < mkRat (-5) 10 then 2
  else if s < mkRat (-3) 10 then 1
  else if s > mkRat 5 10 then -1
  else 0

/-- Intent adjustment: escalation +3, complaint +2, request +1,
inquiry and feedback 0. -/
def intentAdjustment : IntentCategory → ℤ
  | .escalation => 3
  | .complaint => 2
  | .request => 1
  | .inquiry => 0
  | .feedback => 0

/-- Customer value adjustment: vip +2, high +1, medium and low 0. -/
def customerValueAdjustment : CustomerValue → ℤ
  | .vip => 2
  | .high => 1
  | .medium => 0
  | .low => 0

/-- Repeat contact adjustment: same issue within 7 days +2, otherwise within
30 days +1, otherwise 0. -/
def repeatContactAdjustment (w7 w30 : Bool) : ℤ :=
  if w7 then 2 else if w30 then 1 else 0

/-- Time sensitivity adjustment: urgency keywords (urgent, asap, immediately)
+2, after business hours +1. -/
def timeSensitivityAdjustment (kw ah : Bool) : ℤ :=
  (if kw then 2 else 0) + (if ah then 1 else 0)

/-- Clamp an integer into [lo, hi]. -/
def clamp (x lo hi : ℤ) : ℤ := max lo (min hi x)

/-- Base score 5 plus the sum of all applicable adjustments, before
clamping. -/
def unclampedScore (i : UrgencyInput) : ℤ :=
  5 + sentimentAdjustment i.sentimentScore
    + intentAdjustment i.intent
    + customerValueAdjustment i.customerValue
    + repeatContactAdjustment i.repeatWithin7d i.repeatWithin30d
    + timeSensitivityAdjustment i.urgencyKeywords i.afterHours

/-- The urgency scorer: `Final Score = clamp(Base + Adjustments, 1, 10)`. -/
def predictUrgency (i : UrgencyInput) : ℤ :=
  clamp (unclampedScore i) 1 10

/-! ## Agent directory and matcher (design document `Agent`,
`AgentRequirements`; selection policy of spec §4.3) -/

/-- Agent presence status (design document, `Agent.status`). -/
inductive AgentStatus where
  | available
  | busy
  | offline
deriving DecidableEq, Repr

/-- An agent of the directory (design document, `Agent`).  `idleSince` is
modelled from the spec: the longest-idle tie-break of §4.3 needs an idle
timestamp that the design document's `Agent` interface does not carry;
a smaller value means idle for longer. -/
structure Agent where
  agentId : ℕ
  skills : List String
  languages : List String
  currentWorkload : ℕ
  maxWorkload : ℕ
  status : AgentStatus
  performanceScore : ℚ
  idleSince : ℕ
deriving DecidableEq, Repr

/-- Requirements handed to the matcher (design document,
`AgentRequirements`). -/
structure AgentRequirements where
  skills : List String
  language : String
  urgency : ℤ
  preferredAgentId : Option ℕ
deriving DecidableEq, Repr

/-- Modelled from the spec: eligibility filter of §4.3 step 2 — status
available, workload strictly under cap, skills a superset of the required
skills, matching language. -/
def eligibleAgent (req : AgentRequirements) (a : Agent) : Bool :=
  a.status == .available
    && a.currentWorkload < a.maxWorkload
    && req.skills.all (a.skills.contains ·)
    && a.languages.contains req.language

/-- Modelled from the spec: ranking of §4.3 step 3 — `a` ranks strictly
before `b` by performanceScore descending, tie-break by currentWorkload
ascending, then by longest-idle. -/
def ranksBefore (a b : Agent) : Bool :=
  b.performanceScore < a.performanceScore
    || (a.performanceScore == b.performanceScore
        && (a.currentWorkload < b.currentWorkload
            || (a.currentWorkload == b.currentWorkload
                && a.idleSince < b.idleSince)))

/-- Best-ranked agent of `a :: l`, keeping the earlier agent on full ties. -/
def bestOf : Agent → List Agent → Agent
  | a, [] => a
  | a, b :: l => if ranksBefore b a then bestOf b l else bestOf a l

/-- The top candidate among the eligible agents after ranking (spec §4.3
steps 2-4). -/
def rankedCandidate (roster : List Agent) (req : AgentRequirements) :
    Option Agent :=
  match roster.filter (eligibleAgent req) with
  | [] => none
  | a :: l => some (bestOf a l)

/-- Modelled from the spec: the matcher of §4.3.  A present, eligible
preferred agent is selected first (continuity preference); otherwise the
eligible agents are ranked and the top candidate returned, or none. -/
def findBestAgent (roster : List Agent) (req : AgentRequirements) :
    Option Agent :=
  match req.preferredAgentId with
  | some pid =>
    match roster.find? (fun a => a.agentId == pid) with
    | some a =>
      if eligibleAgent req a then some a else rankedCandidate roster req
    | none => rankedCandidate roster req
  | none => rankedCandidate roster req

/-! ## Routing decision (design document, "Routing Logic" and Property 24) -/

/-- The three routing outcomes (design document,
`RoutingDecision.decision`). -/
inductive DecisionKind where
  | automate
  | assign_agent
  | queue
deriving DecidableEq, Repr

/-- The routing decision: automation when intent confidence > 0.85, the
message matches a known automation pattern and urgency < 8; otherwise the
best available agent if one exists; otherwise queue. -/
def routeDecision (intentConfidence : ℚ) (matchesAutomationPattern : Bool)
    (urgencyScore : ℤ) (roster : List Agent) (req : AgentRequirements) :
    DecisionKind :=
  if intentConfidence > mkRat 85 100 ∧ matchesAutomationPattern
      ∧ urgencyScore < 8 then
    .automate
  else
    match findBestAgent roster req with
    | some _ => .assign_agent
    | none => .queue

/-! ## Priority Queue (spec §4.2; the design document gives only the
interface and Property 21) -/

/-- A queue entry: conversation id, urgency-score snapshot and enqueue
time (spec §3, `QueueEntry`). -/
structure QueueEntry where
  conversationId : ℕ
  urgencyScore : ℤ
  enqueueTime : ℕ
deriving DecidableEq, Repr

/-- Error of the queue operations (spec §4.2, `DuplicateEntry`). -/
inductive QueueError where
  | DuplicateEntry
deriving DecidableEq, Repr

/-- Modelled from the spec: the priority key of §4.2 — `a` strictly precedes
`b` by urgencyScore descending, then enqueueTime ascending, then
conversationId as final tie-break. -/
def entryBefore (a b : QueueEntry) : Bool :=
  b.urgencyScore < a.urgencyScore
    || (a.urgencyScore == b.urgencyScore
        && (a.enqueueTime < b.enqueueTime
            || (a.enqueueTime == b.enqueueTime
                && a.conversationId < b.conversationId)))

/-- Select the highest-priority entry of `e :: l`, returning it together
with the remaining entries. -/
def pickBest : QueueEntry → List QueueEntry → QueueEntry × List QueueEntry
  | e, [] => (e, [])
  | e, f :: l =>
    if entryBefore f e then ((pickBest f l).1, e :: (pickBest f l).2)
    else ((pickBest e l).1, f :: (pickBest e l).2)

/-- Modelled from the spec: `dequeueHighest()` of §4.2 — removes and returns
the highest-priority entry, or `none` on an empty queue. -/
def dequeueHighest : List QueueEntry → Option (QueueEntry × List QueueEntry)
  | [] => none
  | e :: l => some (pickBest e l)

/-- The sequence of entries returned by repeatedly calling
`dequeueHighest` until the queue is empty. -/
def dequeueAll (q : List QueueEntry) : List QueueEntry :=
  match q with
  | [] => []
  | e :: l => (pickBest e l).1 :: dequeueAll (pickBest e l).2
termination_by q.length
decreasing_by
  have h : ∀ (e : QueueEntry) (l : List QueueEntry),
      (pickBest e l).2.length = l.length := by
    intro e l
    induction l generalizing e with
    | nil => rfl
    | cons f rest ih =>
      by_cases hf : entryBefore f e = true <;> simp [pickBest, hf, ih]
  simp only [h, List.length_cons]
  omega

/-- Modelled from the spec: `enqueue(entry)` of §4.2 — fails with
`DuplicateEntry` if the conversation already has a live entry, otherwise
appends. -/
def enqueue (q : List QueueEntry) (e : QueueEntry) :
    Except QueueError (List QueueEntry) :=
  if q.any (fun x => x.conversationId == e.conversationId) then
    .error .DuplicateEntry
  else
    .ok (q ++ [e])

/-- Modelled from the spec: `reprioritize(conversationId, newScore)` of
§4.2 — updates the key in place, a no-op if absent. -/
def reprioritize (q : List QueueEntry) (cid : ℕ) (newScore : ℤ) :
    List QueueEntry :=
  q.map (fun x =>
    if x.conversationId == cid then { x with urgencyScore := newScore } else x)

/-- Modelled from the spec: `remove(conversationId)` of §4.2 — removes the
entry if present. -/
def removeEntry (q : List QueueEntry) (cid : ℕ) : List QueueEntry :=
  q.filter (fun x => x.conversationId != cid)

/-! ## Escalation state machine (spec §4.5) -/

/-- The conversation lifecycle states of spec §4.5. -/
inductive ConvLifecycle where
  | Automated
  | Queued
  | Assigned
  | Escalated
  | Resolved
  | Archived
deriving DecidableEq, Repr

/-- Modelled from the spec: the transition relation of §4.5 —
Automated→Escalated, Escalated→Assigned, Queued→Assigned,
Assigned→Resolved, Assigned→Queued, Resolved→Archived, and nothing
else; in particular no transition exits Escalated back to Automated. -/
def lifecycleStep (s t : ConvLifecycle) : Bool :=
  match s, t with
  | .Automated, .Escalated => true
  | .Escalated, .Assigned => true
  | .Queued, .Assigned => true
  | .Assigned, .Resolved => true
  | .Assigned, .Queued => true
  | .Resolved, .Archived => true
  | _, _ => false

/-- The reflexive-transitive closure of `lifecycleStep`: the states a
conversation can reach through any sequence of transitions. -/
inductive LifecycleReaches : ConvLifecycle → ConvLifecycle → Prop where
  | refl (s : ConvLifecycle) : LifecycleReaches s s
  | tail {s t u : ConvLifecycle} :
      LifecycleReaches s t → lifecycleStep t u = true → LifecycleReaches s u

/-- The signal bundle feeding the Automated-state escalation decision of
spec §4.5: explicit escalation keyword, automation attempts with
resolution flag, urgency score, and in-conversation sentiment
deterioration. -/
structure EscalationSignals where
  escalationKeyword : Bool
  automationAttempts : ℕ
  resolved : Bool
  urgencyScore : ℤ
  sentimentDeterioration : ℚ
deriving DecidableEq, Repr

/-- Modelled from the spec: the Automated→Escalated guard of §4.5 —
explicit escalation keyword, OR automationAttempts ≥ 3 without resolution,
OR urgencyScore > 8, OR sentiment deterioration > 0.3. -/
def shouldEscalate (e : EscalationSignals) : Bool :=
  e.escalationKeyword
    || (3 ≤ e.automationAttempts && !e.resolved)
    || 8 < e.urgencyScore
    || mkRat 3 10 < e.sentimentDeterioration

/-- Modelled from the spec: the next state-machine decision for a
conversation currently in Automated — Escalated when the §4.5 guard
fires, otherwise it stays automation-eligible. -/
def nextStateFromAutomated (e : EscalationSignals) : ConvLifecycle :=
  if shouldEscalate e then .Escalated else .Automated

/-! ## Assignment Coordinator (spec §4.4; the design document gives only
the routing-engine interface) -/

/-- A conversation as owned by the core (spec §3). -/
structure Conversation where
  conversationId : ℕ
  state : ConvLifecycle
  assignedAgentId : Option ℕ
  urgencyScore : ℤ
  automationAttempts : ℕ
deriving DecidableEq, Repr

/-- The shared state the coordinator operates on: the conversation set,
the agent directory and the priority queue. -/
structure SysState where
  conversations : List Conversation
  agents : List Agent
  queue : List QueueEntry
deriving DecidableEq, Repr

/-- Errors of the coordinator.  `AlreadyAssigned` and `AlreadyAtCapacity`
are the spec's §4.4/§7 errors; the Unknown/NotAssigned cases make the
operations total on arbitrary ids. -/
inductive AssignError where
  | AlreadyAssigned
  | AlreadyAtCapacity
  | UnknownConversation
  | UnknownAgent
  | NotAssigned
deriving DecidableEq, Repr

/-- Modelled from the spec: the assignable states of §4.4 — an
Automated-candidate or Queued conversation may be assigned. -/
def assignableState : ConvLifecycle → Bool
  | .Automated => true
  | .Queued => true
  | _ => false

/-- Increment the workload of the directory's agent with the given id
(the one `find?` locates). -/
def bumpWorkload : List Agent → ℕ → List Agent
  | [], _ => []
  | a :: l, aid =>
    if a.agentId == aid then
      { a with currentWorkload := a.currentWorkload + 1 } :: l
    else
      a :: bumpWorkload l aid

/-- Decrement the workload of the directory's agent with the given id. -/
def dropWorkload : List Agent → ℕ → List Agent
  | [], _ => []
  | a :: l, aid =>
    if a.agentId == aid then
      { a with currentWorkload := a.currentWorkload - 1 } :: l
    else
      a :: dropWorkload l aid

/-- Move the conversation with the given id into Assigned state, recording
the chosen agent. -/
def setConvAssigned : List Conversation → ℕ → ℕ → List Conversation
  | [], _, _ => []
  | c :: l, cid, aid =>
    if c.conversationId == cid then
      { c with state := .Assigned, assignedAgentId := some aid } :: l
    else
      c :: setConvAssigned l cid aid

/-- Move the conversation with the given id out of Assigned state: back to
Queued on agent failure, otherwise to Resolved. -/
def setConvReleased : List Conversation → ℕ → Bool → List Conversation
  | [], _, _ => []
  | c :: l, cid, requeue =>
    if c.conversationId == cid then
      { c with state := if requeue then .Queued else .Resolved,
               assignedAgentId := none } :: l
    else
      c :: setConvReleased l cid requeue

/-- Modelled from the spec: `assign(conversationId, agentId)` of §4.4 —
succeeds only if the conversation is in an assignable state and the
agent's workload is under cap at commit time; on success the conversation
becomes Assigned, the agent's workload is incremented and any live queue
entry is removed; fails with `AlreadyAssigned` if the conversation is not
assignable, and with `AlreadyAtCapacity` on the commit race (§7).  The
failing outcomes return the state unchanged. -/
def assign (s : SysState) (cid aid : ℕ) :
    Except AssignError Unit × SysState :=
  match s.conversations.find? (fun c => c.conversationId == cid) with
  | none => (.error .UnknownConversation, s)
  | some c =>
    if assignableState c.state then
      match s.agents.find? (fun a => a.agentId == aid) with
      | none => (.error .UnknownAgent, s)
      | some a =>
        if a.currentWorkload < a.maxWorkload then
          (.ok (),
            { conversations := setConvAssigned s.conversations cid aid,
              agents := bumpWorkload s.agents aid,
              queue := removeEntry s.queue cid })
        else
          (.error .AlreadyAtCapacity, s)
    else
      (.error .AlreadyAssigned, s)

/-- Modelled from the spec: `release(conversationId)` of §4.4 — on
resolution or reassignment the conversation leaves Assigned (to Resolved,
or back to Queued on agent failure) and the agent's workload is
decremented. -/
def release (s : SysState) (cid : ℕ) (requeue : Bool) :
    Except AssignError Unit × SysState :=
  match s.conversations.find? (fun c => c.conversationId == cid) with
  | none => (.error .UnknownConversation, s)
  | some c =>
    match c.state, c.assignedAgentId with
    | .Assigned, some aid =>
      (.ok (),
        { conversations := setConvReleased s.conversations cid requeue,
          agents := dropWorkload s.agents aid,
          queue := s.queue })
    | _, _ => (.error .NotAssigned, s)

/-- Enqueue at system level; a duplicate entry leaves the state
unchanged. -/
def sysEnqueue (s : SysState) (e : QueueEntry) : SysState :=
  match enqueue s.queue e with
  | .ok q => { s with queue := q }
  | .error _ => s

/-- Every agent of the directory is at or under its workload cap. -/
def WorkloadInv (s : SysState) : Prop :=
  ∀ a ∈ s.agents, a.currentWorkload ≤ a.maxWorkload

/-- One operation of the core on the shared state: an assignment attempt,
a release, or one of the queue operations. -/
inductive Step : SysState → SysState → Prop where
  | assignStep (s : SysState) (cid aid : ℕ) : Step s (assign s cid aid).2
  | releaseStep (s : SysState) (cid : ℕ) (requeue : Bool) :
      Step s (release s cid requeue).2
  | enqueueStep (s : SysState) (e : QueueEntry) : Step s (sysEnqueue s e)
  | reprioritizeStep (s : SysState) (cid : ℕ) (score : ℤ) :
      Step s { s with queue := reprioritize s.queue cid score }
  | removeStep (s : SysState) (cid : ℕ) :
      Step s { s with queue := removeEntry s.queue cid }

/-- Reachability: zero or more operations of the core. -/
inductive Reachable : SysState → SysState → Prop where
  | refl (s : SysState) : Reachable s s
  | tail {s t u : SysState} : Reachable s t → Step t u → Reachable s u

/-! ## Concrete sample data used by the witnesses -/

/-- A sample available agent with spare capacity. -/
def agentOne : Agent :=
  { agentId := 1, skills := ["billing"], languages := ["en"],
    currentWorkload := 2, maxWorkload := 5, status := .available,
    performanceScore := mkRat 9 10, idleSince := 0 }

/-- Sample requirements matched by `agentOne`. -/
def reqBilling : AgentRequirements :=
  { skills := ["billing"], language := "en", urgency := 7,
    preferredAgentId := none }

/-- A sample system state: one queued conversation, one agent with spare
capacity, one live queue entry. -/
def sampleState : SysState :=
  { conversations := [⟨7, .Queued, none, 9, 0⟩],
    agents := [agentOne],
    queue := [⟨7, 9, 0⟩] }

/-- Queue entry X of the spec's concrete scenario (score 9, enqueued
first). -/
def entryX : QueueEntry := ⟨100, 9, 0⟩

/-- Queue entry Y of the spec's concrete scenario (score 9, enqueued
second). -/
def entryY : QueueEntry := ⟨101, 9, 1⟩

/-- Queue entry Z of the spec's concrete scenario (score 6, enqueued
third). -/
def entryZ : QueueEntry := ⟨102, 6, 2⟩

/-! ## Queue ordering lemmas -/

theorem entryBefore_irrefl (a : QueueEntry) : entryBefore a a = false := by
  simp [entryBefore]

theorem entryBefore_false_trans {a b c : QueueEntry}
    (h1 : entryBefore a b = false) (h2 : entryBefore b c = false) :
    entryBefore a c = false := by
  simp [entryBefore] at h1 h2 ⊢
  omega

theorem entryBefore_true_false {e f b : QueueEntry}
    (h1 : entryBefore f e = true) (h2 : entryBefore f b = false) :
    entryBefore e b = false := by
  simp [entryBefore] at h1 h2 ⊢
  omega

theorem pickBest_cons_of_before {e f : QueueEntry} (l : List QueueEntry)
    (h : entryBefore f e = true) :
    pickBest e (f :: l) = ((pickBest f l).1, e :: (pickBest f l).2) := by
  simp [pickBest, h]

theorem pickBest_cons_of_not_before {e f : QueueEntry} (l : List QueueEntry)
    (h : entryBefore f e = false) :
    pickBest e (f :: l) = ((pickBest e l).1, f :: (pickBest e l).2) := by
  simp [pickBest, h]

theorem pickBest_fst_max (e : QueueEntry) (l : List QueueEntry) :
    ∀ x, (x = e ∨ x ∈ l) → entryBefore x (pickBest e l).1 = false := by
  induction l generalizing e with
  | nil =>
    rintro x (rfl | hx)
    · exact entryBefore_irrefl x
    · cases hx
  | cons f rest ih =>
    intro x hx
    cases h : entryBefore f e with
    | true =>
      rw [pickBest_cons_of_before rest h]
      rcases hx with rfl | hx
      · exact entryBefore_true_false h (ih f f (Or.inl rfl))
      · rcases List.mem_cons.1 hx with h2 | h2
        · exact ih f x (Or.inl h2)
        · exact ih f x (Or.inr h2)
    | false =>
      rw [pickBest_cons_of_not_before rest h]
      rcases hx with rfl | hx
      · exact ih x x (Or.inl rfl)
      · rcases List.mem_cons.1 hx with h2 | h2
        · rw [h2]; exact entryBefore_false_trans h (ih e e (Or.inl rfl))
        · exact ih e x (Or.inr h2)

theorem pickBest_snd_subset (e : QueueEntry) (l : List QueueEntry) :
    ∀ x ∈ (pickBest e l).2, x = e ∨ x ∈ l := by
  induction l generalizing e with
  | nil => intro x hx; cases hx
  | cons f rest ih =>
    intro x hx
    cases h : entryBefore f e with
    | true =>
      rw [pickBest_cons_of_before rest h] at hx
      rcases List.mem_cons.1 hx with rfl | hx
      · exact Or.inl rfl
      · rcases ih f x hx with rfl | hx
        · exact Or.inr (List.mem_cons_self _ _)
        · exact Or.inr (List.mem_cons_of_mem _ hx)
    | false =>
      rw [pickBest_cons_of_not_before rest h] at hx
      rcases List.mem_cons.1 hx with rfl | hx
      · exact Or.inr (List.mem_cons_self _ _)
      · rcases ih e x hx with rfl | hx
        · exact Or.inl rfl
        · exact Or.inr (List.mem_cons_of_mem _ hx)

theorem pickBest_fst_mem (e : QueueEntry) (l : List QueueEntry) :
    (pickBest e l).1 = e ∨ (pickBest e l).1 ∈ l := by
  induction l generalizing e with
  | nil => exact Or.inl rfl
  | cons f rest ih =>
    cases h : entryBefore f e with
    | true =>
      rw [pickBest_cons_of_before rest h]
      rcases ih f with h1 | h1
      · exact Or.inr (by rw [h1]; exact List.mem_cons_self _ _)
      · exact Or.inr (List.mem_cons_of_mem _ h1)
    | false =>
      rw [pickBest_cons_of_not_before rest h]
      rcases ih e with h1 | h1
      · exact Or.inl h1
      · exact Or.inr (List.mem_cons_of_mem _ h1)

theorem dequeueAll_subset :
    ∀ (q : List QueueEntry), ∀ x ∈ dequeueAll q, x ∈ q := by
  intro q
  induction q using dequeueAll.induct with
  | case1 => intro x hx; rw [dequeueAll] at hx; cases hx
  | case2 e l ih =>
    intro x hx
    rw [dequeueAll] at hx
    rcases List.mem_cons.1 hx with rfl | hx
    · rcases pickBest_fst_mem e l with h1 | h1
      · exact by rw [h1]; exact List.mem_cons_self _ _
      · exact List.mem_cons_of_mem _ h1
    · rcases pickBest_snd_subset e l x (ih x hx) with rfl | h
      · exact List.mem_cons_self _ _
      · exact List.mem_cons_of_mem _ h

theorem dequeueAll_pairwise (q : List QueueEntry) :
    List.Pairwise (fun a b => entryBefore b a = false) (dequeueAll q) := by
  induction q using dequeueAll.induct with
  | case1 => rw [dequeueAll]; exact List.Pairwise.nil
  | case2 e l ih =>
    rw [dequeueAll]
    refine List.Pairwise.cons ?_ ih
    intro b hb
    exact pickBest_fst_max e l b
      (pickBest_snd_subset e l b (dequeueAll_subset _ b hb))

/-! ## State machine lemmas -/

theorem lifecycleStep_target_ne_automated {t u : ConvLifecycle}
    (h : lifecycleStep t u = true) : u ≠ ConvLifecycle.Automated := by
  cases t <;> cases u <;> simp_all [lifecycleStep]

/-! ## Matcher lemmas -/

theorem bestOf_mem (a : Agent) (l : List Agent) :
    bestOf a l = a ∨ bestOf a l ∈ l := by
  induction l generalizing a with
  | nil => exact Or.inl rfl
  | cons b rest ih =>
    cases h : ranksBefore b a with
    | true =>
      simp only [bestOf, h, if_true]
      rcases ih b with h1 | h1
      · exact Or.inr (by rw [h1]; exact List.mem_cons_self _ _)
      · exact Or.inr (List.mem_cons_of_mem _ h1)
    | false =>
      simp only [bestOf, h, if_false]
      rcases ih a with h1 | h1
      · exact Or.inl h1
      · exact Or.inr (List.mem_cons_of_mem _ h1)

theorem rankedCandidate_eligible {roster : List Agent}
    {req : AgentRequirements} {a : Agent}
    (h : rankedCandidate roster req = some a) :
    eligibleAgent req a = true := by
  unfold rankedCandidate at h
  cases hf : roster.filter (eligibleAgent req) with
  | nil => rw [hf] at h; cases h
  | cons x l =>
    rw [hf] at h
    have hx : a = bestOf x l := by
      injection h with h'; exact h'.symm
    have hmem : a ∈ x :: l := by
      rcases bestOf_mem x l with h1 | h1
      · rw [hx, h1]; exact List.mem_cons_self _ _
      · rw [hx]; exact List.mem_cons_of_mem _ h1
    rw [← hf] at hmem
    exact List.of_mem_filter hmem

theorem findBestAgent_eligible {roster : List Agent}
    {req : AgentRequirements} {a : Agent}
    (h : findBestAgent roster req = some a) :
    eligibleAgent req a = true := by
  unfold findBestAgent at h
  split at h
  · split at h
    · split at h
      · injection h with h'
        subst h'
        assumption
      · exact rankedCandidate_eligible h
    · exact rankedCandidate_eligible h
  · exact rankedCandidate_eligible h

theorem eligibleAgent_workload {req : AgentRequirements} {a : Agent}
    (h : eligibleAgent req a = true) :
    a.currentWorkload < a.maxWorkload := by
  simp only [eligibleAgent, Bool.and_eq_true, decide_eq_true_eq] at h
  exact h.1.1.2

/-! ## Workload invariant lemmas -/

theorem bumpWorkload_le (l : List Agent) (aid : ℕ) (a : Agent)
    (hfind : l.find? (fun x => x.agentId == aid) = some a)
    (hcap : a.currentWorkload < a.maxWorkload)
    (hinv : ∀ b ∈ l, b.currentWorkload ≤ b.maxWorkload) :
    ∀ b ∈ bumpWorkload l aid, b.currentWorkload ≤ b.maxWorkload := by
  induction l with
  | nil => intro b hb; cases hb
  | cons x rest ih =>
    intro b hb
    simp only [bumpWorkload] at hb
    cases hx : (x.agentId == aid) with
    | true =>
      rw [hx, if_pos rfl] at hb
      rw [List.find?_cons_of_pos (p := fun y => y.agentId == aid) rest hx]
        at hfind
      injection hfind with hfind
      rcases List.mem_cons.1 hb with rfl | hb
      · show x.currentWorkload + 1 ≤ x.maxWorkload
        rw [← hfind] at hcap
        omega
      · exact hinv b (List.mem_cons_of_mem _ hb)
    | false =>
      rw [hx, if_neg Bool.false_ne_true] at hb
      rw [List.find?_cons_of_neg (p := fun y => y.agentId == aid) rest
        (by simp [hx])] at hfind
      rcases List.mem_cons.1 hb with rfl | hb
      · exact hinv b (List.mem_cons_self _ _)
      · exact ih hfind (fun c hc => hinv c (List.mem_cons_of_mem _ hc)) b hb

theorem dropWorkload_le (l : List Agent) (aid : ℕ)
    (hinv : ∀ b ∈ l, b.currentWorkload ≤ b.maxWorkload) :
    ∀ b ∈ dropWorkload l aid, b.currentWorkload ≤ b.maxWorkload := by
  induction l with
  | nil => intro b hb; cases hb
  | cons x rest ih =>
    intro b hb
    simp only [dropWorkload] at hb
    cases hx : (x.agentId == aid) with
    | true =>
      rw [hx, if_pos rfl] at hb
      rcases List.mem_cons.1 hb with rfl | hb
      · show x.currentWorkload - 1 ≤ x.maxWorkload
        have := hinv x (List.mem_cons_self _ _)
        omega
      · exact hinv b (List.mem_cons_of_mem _ hb)
    | false =>
      rw [hx, if_neg Bool.false_ne_true] at hb
      rcases List.mem_cons.1 hb with rfl | hb
      · exact hinv b (List.mem_cons_self _ _)
      · exact ih (fun c hc => hinv c (List.mem_cons_of_mem _ hc)) b hb

theorem assign_preserves_inv (s : SysState) (cid aid : ℕ)
    (hinv : WorkloadInv s) : WorkloadInv (assign s cid aid).2 := by
  unfold assign
  split
  · exact hinv
  · split
    · split
      · exact hinv
      · split
        · intro b hb
          exact bumpWorkload_le s.agents aid _ (by assumption) (by assumption)
            hinv b hb
        · exact hinv
    · exact hinv

theorem release_preserves_inv (s : SysState) (cid : ℕ) (requeue : Bool)
    (hinv : WorkloadInv s) : WorkloadInv (release s cid requeue).2 := by
  unfold release
  split
  · exact hinv
  · split
    · intro b hb
      exact dropWorkload_le s.agents _ hinv b hb
    · exact hinv

theorem step_preserves_inv {s t : SysState} (hst : Step s t)
    (hinv : WorkloadInv s) : WorkloadInv t := by
  cases hst with
  | assignStep cid aid => exact assign_preserves_inv s cid aid hinv
  | releaseStep cid requeue => exact release_preserves_inv s cid requeue hinv
  | enqueueStep e =>
    unfold sysEnqueue
    split
    · intro b hb; exact hinv b hb
    · exact hinv
  | reprioritizeStep cid score => intro b hb; exact hinv b hb
  | removeStep cid => intro b hb; exact hinv b hb

theorem reachable_preserves_inv {s t : SysState} (h : Reachable s t)
    (hinv : WorkloadInv s) : WorkloadInv t := by
  induction h with
  | refl => exact hinv
  | tail _ hstep ih => exact step_preserves_inv hstep ih

/-! ## Scorer bounds -/

theorem sentimentAdjustment_bounds (s : ℚ) :
    -1 ≤ sentimentAdjustment s ∧ sentimentAdjustment s ≤ 2 := by
  unfold sentimentAdjustment
  split_ifs <;> omega

theorem intentAdjustment_bounds (c : IntentCategory) :
    0 ≤ intentAdjustment c ∧ intentAdjustment c ≤ 3 := by
  cases c <;> simp [intentAdjustment]

theorem customerValueAdjustment_bounds (v : CustomerValue) :
    0 ≤ customerValueAdjustment v ∧ customerValueAdjustment v ≤ 2 := by
  cases v <;> simp [customerValueAdjustment]

theorem repeatContactAdjustment_bounds (w7 w30 : Bool) :
    0 ≤ repeatContactAdjustment w7 w30
      ∧ repeatContactAdjustment w7 w30 ≤ 2 := by
  unfold repeatContactAdjustment
  split_ifs <;> omega

theorem timeSensitivityAdjustment_bounds (kw ah : Bool) :
    0 ≤ timeSensitivityAdjustment kw ah
      ∧ timeSensitivityAdjustment kw ah ≤ 3 := by
  unfold timeSensitivityAdjustment
  split_ifs <;> omega

theorem unclampedScore_ge_four (i : UrgencyInput) :
    4 ≤ unclampedScore i := by
  unfold unclampedScore
  have h1 := sentimentAdjustment_bounds i.sentimentScore
  have h2 := intentAdjustment_bounds i.intent
  have h3 := customerValueAdjustment_bounds i.customerValue
  have h4 := repeatContactAdjustment_bounds i.repeatWithin7d i.repeatWithin30d
  have h5 := timeSensitivityAdjustment_bounds i.urgencyKeywords i.afterHours
  omega

/-! ## Claim C1: the score is the clamped adjusted base and lies in
[1, 10] -/

/-- C1: for every valid input bundle, the Urgency Scorer returns
`clamp(5 + the sum of the applicable adjustments, 1, 10)`; hence the
returned score always lies in [1, 10]. -/
theorem urgency_score_is_clamped_sum_and_in_range (i : UrgencyInput) :
    predictUrgency i
        = clamp (5 + sentimentAdjustment i.sentimentScore
            + intentAdjustment i.intent
            + customerValueAdjustment i.customerValue
            + repeatContactAdjustment i.repeatWithin7d i.repeatWithin30d
            + timeSensitivityAdjustment i.urgencyKeywords i.afterHours) 1 10
      ∧ 1 ≤ predictUrgency i ∧ predictUrgency i ≤ 10 := by
  refine ⟨rfl, ?_, ?_⟩ <;>
    · unfold predictUrgency clamp
      omega

/-! ## Claim C2: a score above 8 never routes to automation -/

/-- C2: for every conversation whose urgency score is greater than 8, the
routing decision is never `automate` (it is `assign_agent` or `queue`). -/
theorem high_urgency_never_automate (conf : ℚ) (pattern : Bool) (u : ℤ)
    (roster : List Agent) (req : AgentRequirements) (h : 8 < u) :
    routeDecision conf pattern u roster req ≠ DecisionKind.automate := by
  unfold routeDecision
  split
  next hcond => exact absurd hcond.2.2 (by omega)
  next => split <;> simp

/-- Witness for C2 at a concrete high-urgency input. -/
theorem high_urgency_never_automate_witness :
    (8 : ℤ) < 9
      ∧ routeDecision (mkRat 9 10) true 9 [] reqBilling
          ≠ DecisionKind.automate :=
  ⟨by decide, high_urgency_never_automate _ _ _ _ _ (by decide)⟩

/-! ## Claim C10: confident pattern-matched low-urgency messages are
automated -/

/-- C10: for every message whose intent confidence exceeds 0.85, that
matches a known automation pattern, and whose urgency score is below 8,
the routing decision is `automate`. -/
theorem confident_low_urgency_automates (conf : ℚ) (pattern : Bool)
    (u : ℤ) (roster : List Agent) (req : AgentRequirements)
    (hconf : mkRat 85 100 < conf) (hpat : pattern = true) (hu : u < 8) :
    routeDecision conf pattern u roster req = DecisionKind.automate := by
  unfold routeDecision
  rw [if_pos ⟨hconf, by simp [hpat], hu⟩]

/-- Witness for C10 at a concrete confident, low-urgency input. -/
theorem confident_low_urgency_automates_witness :
    mkRat 85 100 < mkRat 9 10 ∧ (5 : ℤ) < 8
      ∧ routeDecision (mkRat 9 10) true 5 [] reqBilling
          = DecisionKind.automate :=
  ⟨by decide, by decide,
    confident_low_urgency_automates _ _ _ _ _ (by decide) rfl (by decide)⟩

/-! ## Claim C6: escalation is irreversible -/

/-- C6: for every sequence of transitions of the escalation state machine,
once a conversation is in state Escalated no transition sequence ever
takes it back to state Automated. -/
theorem escalated_never_reaches_automated (t : ConvLifecycle)
    (h : LifecycleReaches ConvLifecycle.Escalated t) :
    t ≠ ConvLifecycle.Automated := by
  induction h with
  | refl => decide
  | tail _ hstep _ => exact lifecycleStep_target_ne_automated hstep

/-- Witness for C6 on the concrete reachable state Assigned. -/
theorem escalated_never_reaches_automated_witness :
    LifecycleReaches ConvLifecycle.Escalated ConvLifecycle.Assigned
      ∧ ConvLifecycle.Assigned ≠ ConvLifecycle.Automated :=
  have hr : LifecycleReaches ConvLifecycle.Escalated ConvLifecycle.Assigned :=
    LifecycleReaches.tail (LifecycleReaches.refl _) (by decide)
  ⟨hr, escalated_never_reaches_automated _ hr⟩

/-! ## Claim C7: three unresolved automation attempts force escalation -/

/-- C7: for every conversation with automationAttempts equal to 3 and no
resolution, the next state-machine decision from Automated is
Escalated. -/
theorem three_attempts_escalates (e : EscalationSignals)
    (h3 : e.automationAttempts = 3) (hres : e.resolved = false) :
    nextStateFromAutomated e = ConvLifecycle.Escalated := by
  unfold nextStateFromAutomated shouldEscalate
  rw [h3, hres]
  simp

/-- Witness for C7 at a concrete signal bundle with exactly three
unresolved attempts. -/
theorem three_attempts_escalates_witness :
    (EscalationSignals.automationAttempts
        ⟨false, 3, false, 5, 0⟩ = 3)
      ∧ nextStateFromAutomated ⟨false, 3, false, 5, 0⟩
          = ConvLifecycle.Escalated :=
  ⟨rfl, three_attempts_escalates ⟨false, 3, false, 5, 0⟩ rfl rfl⟩

/-! ## Claim C3: dequeue order respects the priority key -/

/-- C3: every `dequeueHighest()` call returns an entry that no remaining
entry strictly precedes under the (urgencyScore desc, enqueueTime asc,
conversationId) key, so successive calls return entries in key order; and
in the concrete scenario with scores [9, 9, 6] enqueued as X, Y, Z the
dequeue order is X, Y, Z. -/
theorem dequeue_order_respects_priority :
    (∀ (q : List QueueEntry) (e : QueueEntry) (r : List QueueEntry),
        dequeueHighest q = some (e, r) → ∀ x ∈ r, entryBefore x e = false)
    ∧ (∀ q : List QueueEntry,
        List.Pairwise (fun a b => entryBefore b a = false) (dequeueAll q))
    ∧ (do
          let q1 ← enqueue [] entryX
          let q2 ← enqueue q1 entryY
          enqueue q2 entryZ) = Except.ok [entryX, entryY, entryZ]
    ∧ dequeueAll [entryX, entryY, entryZ] = [entryX, entryY, entryZ] := by
  refine ⟨?_, dequeueAll_pairwise, by rfl, ?_⟩
  · intro q e r h x hx
    cases q with
    | nil => simp [dequeueHighest] at h
    | cons a l =>
      simp only [dequeueHighest] at h
      injection h with h'
      have h1 : (pickBest a l).1 = e := by rw [h']
      have h2 : (pickBest a l).2 = r := by rw [h']
      rw [← h2] at hx
      rw [← h1]
      exact pickBest_fst_max a l x (pickBest_snd_subset a l x hx)
  · rw [dequeueAll]
    norm_num [pickBest, entryBefore, entryX, entryY, entryZ]
    rw [dequeueAll]
    norm_num [pickBest, entryBefore, entryX, entryY, entryZ]
    rw [dequeueAll]
    norm_num [pickBest, entryBefore, entryX, entryY, entryZ]
    rw [dequeueAll]

/-- Witness for C3: a concrete queue where the tied higher-score entry
with the earlier enqueue time is returned first. -/
theorem dequeue_order_respects_priority_witness :
    dequeueHighest [entryY, entryX, entryZ]
        = some (entryX, [entryY, entryZ])
      ∧ entryBefore entryY entryX = false :=
  ⟨by decide,
    dequeue_order_respects_priority.1 [entryY, entryX, entryZ] entryX
      [entryY, entryZ] (by decide) entryY (by decide)⟩

/-! ## Claim C4: no agent ever exceeds its workload cap -/

/-- C4: the matcher never selects an agent already at maxWorkload, and
the workload cap invariant is preserved by every reachable system state:
from any state where every agent is at or under cap, every sequence of
core operations keeps every agent at or under cap. -/
theorem workload_never_exceeds_cap :
    (∀ (roster : List Agent) (req : AgentRequirements) (a : Agent),
        findBestAgent roster req = some a →
          a.currentWorkload < a.maxWorkload)
    ∧ ∀ s t : SysState, WorkloadInv s → Reachable s t → WorkloadInv t :=
  ⟨fun _ _ _ h => eligibleAgent_workload (findBestAgent_eligible h),
   fun _ _ hinv hr => reachable_preserves_inv hr hinv⟩

/-- Witness for C4: a concrete matcher call and a concrete assignment
step from a concrete capped state. -/
theorem workload_never_exceeds_cap_witness :
    (findBestAgent [agentOne] reqBilling = some agentOne
        ∧ agentOne.currentWorkload < agentOne.maxWorkload)
      ∧ WorkloadInv sampleState
      ∧ WorkloadInv (assign sampleState 7 1).2 := by
  have hw : WorkloadInv sampleState := by
    unfold WorkloadInv
    decide
  exact ⟨⟨by decide,
      workload_never_exceeds_cap.1 [agentOne] reqBilling agentOne
        (by decide)⟩,
    hw,
    workload_never_exceeds_cap.2 sampleState _ hw
      (Reachable.tail (Reachable.refl _) (Step.assignStep sampleState 7 1))⟩

/-! ## Claim C5: assign is an idempotency guard -/

theorem find?_setConvAssigned (l : List Conversation) (cid aid : ℕ)
    (c : Conversation)
    (hc : l.find? (fun x => x.conversationId == cid) = some c) :
    (setConvAssigned l cid aid).find? (fun x => x.conversationId == cid)
      = some { c with state := ConvLifecycle.Assigned,
                      assignedAgentId := some aid } := by
  induction l with
  | nil => cases hc
  | cons x rest ih =>
    cases hx : (x.conversationId == cid) with
    | true =>
      rw [List.find?_cons_of_pos (p := fun y => y.conversationId == cid)
        rest hx] at hc
      injection hc with hc
      simp only [setConvAssigned]
      rw [hx, if_pos rfl]
      rw [List.find?_cons_of_pos (p := fun y => y.conversationId == cid)
        rest (by exact hx)]
      rw [hc]
    | false =>
      rw [List.find?_cons_of_neg (p := fun y => y.conversationId == cid)
        rest (by simp [hx])] at hc
      simp only [setConvAssigned]
      rw [hx, if_neg Bool.false_ne_true]
      rw [List.find?_cons_of_neg (p := fun y => y.conversationId == cid)
        (setConvAssigned rest cid aid) (by simp [hx])]
      exact ih hc

/-- C5: when the conversation is in an assignable state and the agent is
under cap, the first `assign` succeeds and moves the conversation out of
the assignable states; the second `assign` for the same pair fails with
`AlreadyAssigned` and returns its input state unchanged. -/
theorem assign_twice_second_fails (s : SysState) (cid aid : ℕ)
    (c : Conversation) (a : Agent)
    (hc : s.conversations.find? (fun x => x.conversationId == cid)
        = some c)
    (hstate : assignableState c.state = true)
    (ha : s.agents.find? (fun x => x.agentId == aid) = some a)
    (hcap : a.currentWorkload < a.maxWorkload) :
    assign s cid aid
        = (Except.ok (),
           { conversations := setConvAssigned s.conversations cid aid,
             agents := bumpWorkload s.agents aid,
             queue := removeEntry s.queue cid })
      ∧ assign { conversations := setConvAssigned s.conversations cid aid,
                 agents := bumpWorkload s.agents aid,
                 queue := removeEntry s.queue cid } cid aid
          = (Except.error AssignError.AlreadyAssigned,
             { conversations := setConvAssigned s.conversations cid aid,
               agents := bumpWorkload s.agents aid,
               queue := removeEntry s.queue cid }) := by
  constructor
  · unfold assign
    simp only [hc, hstate, if_true, ha]
    rw [if_pos hcap]
  · unfold assign
    simp only [find?_setConvAssigned s.conversations cid aid c hc]
    simp [assignableState]

/-- Witness for C5 on the concrete sample state: the first assignment
succeeds, the repeated one fails with `AlreadyAssigned` and leaves the
state unchanged. -/
theorem assign_twice_second_fails_witness :
    assign sampleState 7 1
        = (Except.ok (),
           { conversations := setConvAssigned sampleState.conversations 7 1,
             agents := bumpWorkload sampleState.agents 1,
             queue := removeEntry sampleState.queue 7 })
      ∧ assign { conversations := setConvAssigned sampleState.conversations 7 1,
                 agents := bumpWorkload sampleState.agents 1,
                 queue := removeEntry sampleState.queue 7 } 7 1
          = (Except.error AssignError.AlreadyAssigned,
             { conversations := setConvAssigned sampleState.conversations 7 1,
               agents := bumpWorkload sampleState.agents 1,
               queue := removeEntry sampleState.queue 7 }) :=
  assign_twice_second_fails sampleState 7 1
    ⟨7, .Queued, none, 9, 0⟩ agentOne
    (by decide) (by decide) (by decide) (by decide)

/-! ## Claim C8: factor sensitivity of the scorer -/

/-- C8 counterexample: two inputs that differ only in intent category
(inquiry vs feedback, both adjusted by 0) receive the same urgency score,
so a factor difference does not always change the score. -/
theorem intent_factor_inactive_counterexample :
    (UrgencyInput.mk 0 .inquiry .low false false false false).intent
        ≠ (UrgencyInput.mk 0 .feedback .low false false false false).intent
      ∧ (UrgencyInput.mk 0 .inquiry .low false false false
            false).sentimentScore
        = (UrgencyInput.mk 0 .feedback .low false false false
            false).sentimentScore
      ∧ (UrgencyInput.mk 0 .inquiry .low false false false
            false).customerValue
        = (UrgencyInput.mk 0 .feedback .low false false false
            false).customerValue
      ∧ predictUrgency (UrgencyInput.mk 0 .inquiry .low false false false
            false)
        = predictUrgency (UrgencyInput.mk 0 .feedback .low false false false
            false) := by
  decide

/-- C8 (amended): two inputs receive different urgency scores whenever
their factor adjustments give different unclamped totals and neither
total is clamped — in particular inputs differing in a single factor in a
way that changes that factor's adjustment, with both totals inside
[1, 10]. -/
theorem distinct_unclamped_totals_distinct_scores (a b : UrgencyInput)
    (hne : unclampedScore a ≠ unclampedScore b)
    (ha1 : 1 ≤ unclampedScore a) (ha2 : unclampedScore a ≤ 10)
    (hb1 : 1 ≤ unclampedScore b) (hb2 : unclampedScore b ≤ 10) :
    predictUrgency a ≠ predictUrgency b := by
  unfold predictUrgency clamp
  omega

/-- Witness for the amended C8: a pair differing only in sentiment, with
different in-range unclamped totals, receives different scores. -/
theorem distinct_unclamped_totals_distinct_scores_witness :
    unclampedScore (UrgencyInput.mk 0 .inquiry .low false false false
        false) = 5
      ∧ unclampedScore (UrgencyInput.mk (mkRat (-6) 10) .inquiry .low
          false false false false) = 7
      ∧ predictUrgency (UrgencyInput.mk 0 .inquiry .low false false false
          false)
        ≠ predictUrgency (UrgencyInput.mk (mkRat (-6) 10) .inquiry .low
          false false false false) :=
  ⟨by decide, by decide,
    distinct_unclamped_totals_distinct_scores _ _
      (by decide) (by decide) (by decide) (by decide) (by decide)⟩

/-! ## Claim C9: the VIP urgency boost -/

/-- C9 counterexample: against an otherwise-identical high-value (non-VIP)
profile the VIP boost is only 1 point (6 vs 7), not at least 2. -/
theorem vip_boost_counterexample :
    predictUrgency (UrgencyInput.mk 0 .inquiry .high false false false
        false) = 6
      ∧ predictUrgency (UrgencyInput.mk 0 .inquiry .vip false false false
          false) = 7
      ∧ ¬ (predictUrgency (UrgencyInput.mk 0 .inquiry .high false false
              false false) + 2
            ≤ predictUrgency (UrgencyInput.mk 0 .inquiry .vip false false
              false false)) := by
  decide

/-- C9 (amended): for every low- or medium-value profile, the
otherwise-identical VIP input scores exactly `min(non-VIP score + 2, 10)`
— at least 2 points more unless the VIP total is clamped at 10; a
high-value baseline only gains 1 point. -/
theorem vip_scores_two_more_unless_clamped (i : UrgencyInput)
    (h : i.customerValue = CustomerValue.low
        ∨ i.customerValue = CustomerValue.medium) :
    predictUrgency { i with customerValue := CustomerValue.vip }
      = min (predictUrgency i + 2) 10 := by
  have hval : customerValueAdjustment i.customerValue = 0 := by
    rcases h with h | h <;> rw [h] <;> rfl
  have hbase := unclampedScore_ge_four i
  have hunc : unclampedScore { i with customerValue := CustomerValue.vip }
      = unclampedScore i + 2 := by
    show 5 + sentimentAdjustment i.sentimentScore
        + intentAdjustment i.intent
        + customerValueAdjustment CustomerValue.vip
        + repeatContactAdjustment i.repeatWithin7d i.repeatWithin30d
        + timeSensitivityAdjustment i.urgencyKeywords i.afterHours
      = unclampedScore i + 2
    unfold unclampedScore
    rw [hval, show customerValueAdjustment CustomerValue.vip = 2 from rfl]
    omega
  unfold predictUrgency clamp
  rw [hunc]
  omega

/-- Witness for the amended C9 at a concrete low-value baseline. -/
theorem vip_scores_two_more_unless_clamped_witness :
    ((UrgencyInput.mk 0 .inquiry .low false false false
        false).customerValue = CustomerValue.low)
      ∧ predictUrgency { UrgencyInput.mk 0 .inquiry .low false false false
            false with customerValue := CustomerValue.vip }
        = min (predictUrgency (UrgencyInput.mk 0 .inquiry .low false false
            false false) + 2) 10 :=
  ⟨rfl, vip_scores_two_more_unless_clamped _ (Or.inl rfl)⟩

end OmniRouting
